import Mathlib

/-!
Verification of the FAR archive extractor (`far_extractor/far_extractor.py`).

Streams are modelled as a byte list together with a cursor position.
A Python byte (one entry of a `bytearray`) is a `Nat` (intended < 256).
Decoded strings are carried as their UTF-8 byte lists.  `readinto` on a
pre-zeroed `bytearray(n)` reads the available bytes at the cursor and leaves
the remainder of the buffer zero, advancing the cursor by the number of
bytes actually read — it never fails.
-/

/-- A buffered reader: the underlying file contents plus the cursor. -/
structure ByteStream where
  data : List Nat
  pos : Nat
deriving DecidableEq

/-- `stream.seek(offset, io.SEEK_SET)`. -/
def seek (offset : Nat) (s : ByteStream) : ByteStream :=
  { s with pos := offset }

/-- `byte_array = bytearray(n); stream.readinto(byte_array)`: the `n`-byte
buffer after the read (available bytes then zeros) and the advanced stream. -/
def readinto (n : Nat) (s : ByteStream) : List Nat × ByteStream :=
  let bytesRead := (s.data.drop s.pos).take n
  (bytesRead ++ List.replicate (n - bytesRead.length) 0,
   { s with pos := s.pos + bytesRead.length })

/-- `int.from_bytes(byte_array, "little")`. -/
def fromBytesLE : List Nat → Nat
  | [] => 0
  | b :: rest => b + 256 * fromBytesLE rest

/-- Is a continuation byte (`0x80`–`0xBF`)? -/
def utf8Cont (b : Nat) : Bool := 0x80 ≤ b && b ≤ 0xBF

/-- Validity of a byte list as UTF-8 (what `bytes.decode("utf-8")` accepts):
RFC 3629, rejecting overlong forms, surrogates and values above U+10FFFF. -/
def utf8Valid : List Nat → Bool
  | [] => true
  | b :: rest =>
    if b ≤ 0x7F then utf8Valid rest
    else if 0xC2 ≤ b && b ≤ 0xDF then
      match rest with
      | c1 :: r => utf8Cont c1 && utf8Valid r
      | [] => false
    else if b = 0xE0 then
      match rest with
      | c1 :: c2 :: r => (0xA0 ≤ c1 && c1 ≤ 0xBF) && utf8Cont c2 && utf8Valid r
      | _ => false
    else if (0xE1 ≤ b && b ≤ 0xEC) || b = 0xEE || b = 0xEF then
      match rest with
      | c1 :: c2 :: r => utf8Cont c1 && utf8Cont c2 && utf8Valid r
      | _ => false
    else if b = 0xED then
      match rest with
      | c1 :: c2 :: r => (0x80 ≤ c1 && c1 ≤ 0x9F) && utf8Cont c2 && utf8Valid r
      | _ => false
    else if b = 0xF0 then
      match rest with
      | c1 :: c2 :: c3 :: r =>
          (0x90 ≤ c1 && c1 ≤ 0xBF) && utf8Cont c2 && utf8Cont c3 && utf8Valid r
      | _ => false
    else if 0xF1 ≤ b && b ≤ 0xF3 then
      match rest with
      | c1 :: c2 :: c3 :: r => utf8Cont c1 && utf8Cont c2 && utf8Cont c3 && utf8Valid r
      | _ => false
    else if b = 0xF4 then
      match rest with
      | c1 :: c2 :: c3 :: r =>
          (0x80 ≤ c1 && c1 ≤ 0x8F) && utf8Cont c2 && utf8Cont c3 && utf8Valid r
      | _ => false
    else false

/-- Python values returned by `convert_bytes`: a decoded string (kept as its
UTF-8 bytes) or an unsigned integer. -/
inductive PyValue where
  | str : List Nat → PyValue
  | int : Nat → PyValue
deriving DecidableEq

/-- The exceptions the decoder can raise. -/
inductive PyError where
  /-- `UnicodeDecodeError` from `bytes.decode("utf-8")`. -/
  | unicodeDecodeError
  /-- `ValueError("Type not supported.")` from `convert_bytes`. -/
  | typeNotSupported
  /-- `ValueError("File name not found in Manifest.")`. -/
  | fileNameNotFound
  /-- `OSError` raised by `os.makedirs` (permissions, a path component that
  is an existing file, disk full); it is raised outside the `try` block and
  propagates out of `extract_manifest_entry`. -/
  | makedirsOSError
  /-- `ValueError` raised by `open` (an embedded NUL byte in the path); it
  is not an `IOError`, so the `except IOError` clause does not catch it. -/
  | openValueError
deriving DecidableEq

/-- Projection used where the source binds an `int`-kind result. -/
def pyInt : PyValue → Nat
  | .int n => n
  | .str _ => 0

/-- Projection used where the source binds a `str`-kind result. -/
def pyStr : PyValue → List Nat
  | .str s => s
  | .int _ => []

/-- `convert_bytes(n_bytes, type, stream)`: reads `n_bytes` into a zeroed
buffer and decodes it as UTF-8 text or a little-endian integer. -/
def convert_bytes (n_bytes : Nat) (type : String) (stream : ByteStream) :
    Except PyError (PyValue × ByteStream) :=
  let byte_array := (readinto n_bytes stream).1
  let s1 := (readinto n_bytes stream).2
  if type = "str" then
    if utf8Valid byte_array then .ok (.str byte_array, s1)
    else .error .unicodeDecodeError
  else if type = "int" then .ok (.int (fromBytesLE byte_array), s1)
  else .error .typeNotSupported

/-- `.replace("\\", "/")` on the decoded name, at the byte level
(byte `0x5C` is the backslash, `0x2F` the forward slash; for valid UTF-8
these bytes occur only as those characters). -/
def replaceBackslashes (s : List Nat) : List Nat :=
  s.map (fun b => if b = 92 then 47 else b)

/-- One archive-member descriptor. -/
structure ManifestEntry where
  length : Nat
  _length : Nat
  file_offset : Nat
  file_name_length : Nat
  file_name : List Nat
deriving DecidableEq, Inhabited

/-- The parsed table. -/
structure Manifest where
  number_of_files : Nat
  manifest_entries : List ManifestEntry
deriving DecidableEq, Inhabited

/-- `parse_manifest_entry(stream)`: the five fields in fixed order, the name
decoded from `file_name_length` bytes with separator normalization. -/
def parse_manifest_entry (stream : ByteStream) :
    Except PyError (ManifestEntry × ByteStream) := do
  let lengthR ← convert_bytes 4 "int" stream
  let lengthR2 ← convert_bytes 4 "int" lengthR.2
  let offsetR ← convert_bytes 4 "int" lengthR2.2
  let nameLenR ← convert_bytes 4 "int" offsetR.2
  let nameR ← convert_bytes (pyInt nameLenR.1) "str" nameLenR.2
  .ok ({ length := pyInt lengthR.1
         _length := pyInt lengthR2.1
         file_offset := pyInt offsetR.1
         file_name_length := pyInt nameLenR.1
         file_name := replaceBackslashes (pyStr nameR.1) }, nameR.2)

/-- The `for entry in manifest.manifest_entries` lookup loop. -/
def findEntry : List ManifestEntry → List Nat → Except PyError ManifestEntry
  | [], _ => .error .fileNameNotFound
  | e :: rest, n => if e.file_name = n then .ok e else findEntry rest n

/-- `get_manifest_entry_by_name(manifest, file_name)`: linear scan, first
match, `ValueError` when absent. -/
def get_manifest_entry_by_name (manifest : Manifest) (file_name : List Nat) :
    Except PyError ManifestEntry :=
  findEntry manifest.manifest_entries file_name

/-- `get_bytes(offset, length, stream)`: `bytearray(length)`, seek to
`offset` from the start, `readinto`. -/
def get_bytes (offset length : Nat) (stream : ByteStream) :
    List Nat × ByteStream :=
  readinto length (seek offset stream)

/-- `os.path.join(a, b)` for two POSIX path arguments. -/
def os_path_join (a b : List Nat) : List Nat :=
  if b.head? = some 47 then b
  else if a = [] ∨ a.getLast? = some 47 then a ++ b
  else a ++ 47 :: b

/-- Outcome of extracting one entry: the destination path, the bytes written
(`none` when the `open`/`write` raised `IOError`, which is caught), and
whether the error messages were printed. -/
structure WriteOutcome where
  file_path : List Nat
  written : Option (List Nat)
  logged : Bool
deriving DecidableEq, Inhabited

/-- What the destination filesystem does for a given destination path, the
oracle over which extraction is verified.  (`os.makedirs` operates on
`os.path.dirname(file_path)`, a function of the destination path, so one
oracle keyed on the destination covers every failure site.) -/
inductive WriteBehavior where
  /-- `os.makedirs`, `open` and `write` all succeed. -/
  | ok
  /-- `os.makedirs` succeeds; `open` or `write` raises `IOError`. -/
  | ioError
  /-- `os.makedirs` raises `OSError` (permissions, a component that is an
  existing file, disk full). -/
  | makedirsOSError
  /-- `os.makedirs` succeeds; `open` raises `ValueError` (embedded NUL). -/
  | openValueError
deriving DecidableEq

/-- `extract_manifest_entry(entry, output_path, stream)`: read the byte
range, join the destination path, `os.makedirs(os.path.dirname(file_path),
exist_ok=True)`, then `try: open/write except IOError: print`.  Only the
`IOError` from `open`/`write` is inside the `try` block and caught (logged,
normal return); an `OSError` from `os.makedirs` and a `ValueError` from
`open` propagate uncaught. -/
def extract_manifest_entry (entry : ManifestEntry) (output_path : List Nat)
    (stream : ByteStream) (behavior : List Nat → WriteBehavior) :
    Except PyError (WriteOutcome × ByteStream) :=
  let byteArrayStream := get_bytes entry.file_offset entry.length stream
  let file_path := os_path_join output_path entry.file_name
  match behavior file_path with
  | .makedirsOSError => .error .makedirsOSError
  | .openValueError => .error .openValueError
  | .ioError =>
      .ok ({ file_path := file_path, written := none, logged := true },
           byteArrayStream.2)
  | .ok =>
      .ok ({ file_path := file_path, written := some byteArrayStream.1,
             logged := false },
           byteArrayStream.2)

/-- The extraction loop body of `extract_manifest_files`, threading the one
open stream through the entries in manifest order.  An uncaught exception
from `extract_manifest_entry` aborts the loop: the outcomes produced so far
stay (those files are on disk) and the error escapes; no later entry is
processed. -/
def extractLoop : List ManifestEntry → List Nat → ByteStream →
    (List Nat → WriteBehavior) → List WriteOutcome × Option PyError
  | [], _, _, _ => ([], none)
  | e :: rest, out, s, f =>
    match extract_manifest_entry e out s f with
    | .error err => ([], some err)
    | .ok step =>
      let restRun := extractLoop rest out step.2 f
      (step.1 :: restRun.1, restRun.2)

/-- `extract_manifest_files(manifest, output_path, far_file_path)`: opens the
archive once and runs the loop; the second component is the uncaught
exception, if one aborted the run. -/
def extract_manifest_files (manifest : Manifest) (output_path : List Nat)
    (farData : List Nat) (behavior : List Nat → WriteBehavior) :
    List WriteOutcome × Option PyError :=
  extractLoop manifest.manifest_entries output_path ⟨farData, 0⟩ behavior

/-- The outcome a single entry produces when its destination behaviour is
one of the caught cases (`ok` or `ioError`). -/
def entryOutcomeCaught (e : ManifestEntry) (out d : List Nat)
    (behavior : List Nat → WriteBehavior) : WriteOutcome :=
  match behavior (os_path_join out e.file_name) with
  | .ioError => ⟨os_path_join out e.file_name, none, true⟩
  | _ => ⟨os_path_join out e.file_name,
          some (get_bytes e.file_offset e.length ⟨d, 0⟩).1, false⟩

/-- Header phase of `create_manifest`: signature (8-byte string), version
(4-byte int), manifest offset (4-byte int); returns the offset and the
stream as positioned after those reads. -/
def parseHeaderState (farData : List Nat) :
    Except PyError (Nat × ByteStream) := do
  let signatureR ← convert_bytes 8 "str" (⟨farData, 0⟩ : ByteStream)
  let versionR ← convert_bytes 4 "int" signatureR.2
  let offsetR ← convert_bytes 4 "int" versionR.2
  .ok (pyInt offsetR.1, offsetR.2)

/-- The `for _ in range(number_of_files)` loop collecting parsed entries. -/
def parseEntriesLoop : Nat → ByteStream →
    Except PyError (List ManifestEntry × ByteStream)
  | 0, s => .ok ([], s)
  | n + 1, s => do
    let entryR ← parse_manifest_entry s
    let restR ← parseEntriesLoop n entryR.2
    .ok (entryR.1 :: restR.1, restR.2)

/-- `create_manifest(far_file_path)`: header, seek to the manifest offset,
4-byte entry count, then exactly that many entries in order. -/
def create_manifest (farData : List Nat) : Except PyError Manifest := do
  let headerR ← parseHeaderState farData
  let countR ← convert_bytes 4 "int" (seek headerR.1 headerR.2)
  let entriesR ← parseEntriesLoop (pyInt countR.1) countR.2
  .ok ⟨pyInt countR.1, entriesR.1⟩

/-! ### Path interpretation, for the traversal question

Destination paths are interpreted the way the operating system resolves
them: split on `/`, drop empty and `.` components, let `..` remove the
preceding component.  A path lies under a root when the resolved root
components are a prefix of the resolved path components. -/

/-- Split a byte path on `/` (byte `0x2F`). -/
def splitSlash : List Nat → List (List Nat)
  | [] => [[]]
  | b :: rest =>
    let r := splitSlash rest
    if b = 47 then [] :: r
    else
      match r with
      | [] => [[b]]
      | c :: cs => (b :: c) :: cs

/-- Resolve `.`, `..` and empty components left to right. -/
def resolveComps (cs : List (List Nat)) : List (List Nat) :=
  cs.foldl
    (fun acc c =>
      if c = [] ∨ c = [46] then acc
      else if c = [46, 46] then acc.dropLast
      else acc ++ [c]) []

/-- `p` stays inside `root` after resolution. -/
def liesUnder (root p : List Nat) : Bool :=
  (resolveComps (splitSlash root)).isPrefixOf (resolveComps (splitSlash p))

/-! ### Reference definitions taken from the spec's words

These follow the specification text, to be compared with the definitions
above that were translated from the source. -/

/-- The spec's error vocabulary. -/
inductive SpecError where
  | truncatedRead
deriving DecidableEq

/-- Spec wording for `readRange(stream, offset, length)`: seek to `offset`,
read exactly `length` bytes, fail with `TruncatedReadError` when fewer are
available. -/
def readRange_specModel (offset length : Nat) (data : List Nat) :
    Except SpecError (List Nat) :=
  if data.length < offset + length then .error .truncatedRead
  else .ok ((data.drop offset).take length)

/-- Spec wording for the byte-conversion primitive on `kind = "int"`: fail
with `TruncatedReadError` when fewer than `byteCount` bytes remain. -/
def convertBytesInt_specModel (byteCount : Nat) (s : ByteStream) :
    Except SpecError (Nat × ByteStream) :=
  if (s.data.drop s.pos).length < byteCount then .error .truncatedRead
  else .ok (fromBytesLE ((s.data.drop s.pos).take byteCount),
            { s with pos := s.pos + byteCount })

/-- The spec's reference little-endian decode: position `i` weighs
`256 ^ i`. -/
def referenceLittleEndianDecode (b : List Nat) : Nat :=
  ∑ i ∈ Finset.range b.length, b.getD i 0 * 256 ^ i

/-! ### Concrete fixtures (the spec's section-8 scenario and a truncated
archive) -/

/-- The spec's concrete scenario: signature `"SIMSFAR "`, version 1,
manifest offset 20, two entries (`a.txt` at offset 0 length 5,
`dir\b.txt` at offset 5 length 3). -/
def testArchive : List Nat :=
  [83, 73, 77, 83, 70, 65, 82, 32, 1, 0, 0, 0, 20, 0, 0, 0, 10, 20, 30, 40,
   2, 0, 0, 0,
   5, 0, 0, 0, 5, 0, 0, 0, 0, 0, 0, 0, 5, 0, 0, 0, 97, 46, 116, 120, 116,
   3, 0, 0, 0, 3, 0, 0, 0, 5, 0, 0, 0, 9, 0, 0, 0,
   100, 105, 114, 92, 98, 46, 116, 120, 116]

/-- `a.txt` as bytes. -/
def nameATxt : List Nat := [97, 46, 116, 120, 116]

/-- `dir/b.txt` as bytes (post-normalization). -/
def nameDirBTxt : List Nat := [100, 105, 114, 47, 98, 46, 116, 120, 116]

/-- The manifest the scenario parses to. -/
def testManifest : Manifest :=
  ⟨2, [⟨5, 5, 0, 5, nameATxt⟩, ⟨3, 3, 5, 9, nameDirBTxt⟩]⟩

/-- An archive whose header is intact but whose manifest table declares two
entries while no entry bytes remain (offset 16, count 2, then end of
file). -/
def truncArchive : List Nat :=
  [83, 73, 77, 83, 70, 65, 82, 32, 1, 0, 0, 0, 16, 0, 0, 0, 2, 0, 0, 0]

/-- Two entries sharing the name `a.txt`, for the duplicate case. -/
def dupManifest : Manifest :=
  ⟨2, [⟨1, 1, 0, 5, nameATxt⟩, ⟨2, 2, 5, 5, nameATxt⟩]⟩

/-- Output root `out` as bytes. -/
def outRoot : List Nat := [111, 117, 116]

/-- The traversal name `../evil` as bytes. -/
def nameDotDotEvil : List Nat := [46, 46, 47, 101, 118, 105, 108]

/-- A destination filesystem on which creating the directory for the first
scenario entry's destination raises `OSError` and everything else works. -/
def makedirsFailFirst : List Nat → WriteBehavior :=
  fun pth => if pth == os_path_join outRoot nameATxt then .makedirsOSError
             else .ok

/-- A destination filesystem on which opening the first scenario entry's
destination raises `IOError` (e.g. a read-only directory) and everything
else works. -/
def ioErrorFailFirst : List Nat → WriteBehavior :=
  fun pth => if pth == os_path_join outRoot nameATxt then .ioError else .ok

/-! ### Theorems -/

/-! ### Basic lemmas about the primitives -/

/-- `readinto` always fills the whole buffer. -/
theorem readinto_fst_length (n : Nat) (s : ByteStream) :
    ((readinto n s).1).length = n := by
  simp only [readinto, List.length_append, List.length_replicate]
  have h : ((s.data.drop s.pos).take n).length ≤ n := by
    simp [List.length_take]
  omega

/-- When the stream holds enough bytes, `readinto` returns exactly them. -/
theorem readinto_full (n : Nat) (s : ByteStream) (h : s.pos + n ≤ s.data.length) :
    (readinto n s).1 = (s.data.drop s.pos).take n := by
  have hlen : ((s.data.drop s.pos).take n).length = n := by
    simp [List.length_take, List.length_drop]
    omega
  simp [readinto, hlen]

/-- The integer branch of `convert_bytes` never fails: it converts whatever
`readinto` put in the zero-initialized buffer. -/
theorem convert_bytes_int_eq (n : Nat) (s : ByteStream) :
    convert_bytes n "int" s =
      .ok (.int (fromBytesLE ((readinto n s).1)), (readinto n s).2) := by
  simp [convert_bytes]

/-- fromBytesLE agrees with the positional little-endian sum. -/
theorem fromBytesLE_eq_reference (b : List Nat) :
    fromBytesLE b = referenceLittleEndianDecode b := by
  induction b with
  | nil => simp [fromBytesLE, referenceLittleEndianDecode]
  | cons x xs ih =>
    simp only [fromBytesLE, referenceLittleEndianDecode, List.length_cons]
    rw [Finset.sum_range_succ']
    simp only [List.getD_cons_succ, List.getD_cons_zero, pow_zero, mul_one,
      pow_succ]
    rw [ih]
    simp only [referenceLittleEndianDecode]
    rw [Finset.sum_congr rfl (fun i _ => by ring : ∀ i ∈ Finset.range xs.length,
      xs.getD i 0 * (256 ^ i * 256) = 256 * (xs.getD i 0 * 256 ^ i))]
    rw [← Finset.mul_sum]
    ring

/-- C9: decoding a 4-byte sequence with `convert_bytes`'s `"int"` kind agrees
with the reference little-endian unsigned 32-bit decode. -/
theorem c9_int_decode_matches_reference (b0 b1 b2 b3 : Nat) :
    convert_bytes 4 "int" ⟨[b0, b1, b2, b3], 0⟩ =
      .ok (.int (referenceLittleEndianDecode [b0, b1, b2, b3]),
           ⟨[b0, b1, b2, b3], 4⟩) := by
  rw [convert_bytes_int_eq]
  rw [← fromBytesLE_eq_reference]
  simp [readinto]

/-- C7: backslash-to-slash normalization is idempotent and removes every
backslash. -/
theorem c7_normalization_idempotent_no_backslash (s : List Nat) :
    replaceBackslashes (replaceBackslashes s) = replaceBackslashes s ∧
    (replaceBackslashes s).count 92 = 0 := by
  constructor
  · induction s with
    | nil => rfl
    | cons b t ih =>
      by_cases hb : b = 92 <;>
        simp [replaceBackslashes, hb] at ih ⊢ <;> exact ih
  · rw [List.count_eq_zero]
    simp only [replaceBackslashes, List.mem_map, not_exists]
    intro x hx
    obtain ⟨-, hcontra⟩ := hx
    by_cases h : x = 92 <;> simp [h] at hcontra

/-- C10: `get_bytes` always returns a buffer of exactly the requested
length; positions past the end of the stream data are zero, and no error
is possible. -/
theorem c10_get_bytes_length_and_zero_fill (offset len : Nat) (d : List Nat)
    (p : Nat) :
    ((get_bytes offset len ⟨d, p⟩).1).length = len ∧
    ∀ i, i < len → d.length ≤ offset + i →
      ((get_bytes offset len ⟨d, p⟩).1)[i]? = some 0 := by
  refine ⟨readinto_fst_length len (seek offset ⟨d, p⟩), ?_⟩
  intro i hi hd
  show ((readinto len (seek offset ⟨d, p⟩)).1)[i]? = some 0
  simp only [readinto, seek]
  have hrlen : ((d.drop offset).take len).length ≤ i := by
    simp [List.length_take, List.length_drop]
    omega
  rw [List.getElem?_append_right hrlen, List.getElem?_replicate]
  have htake : ((d.drop offset).take len).length ≤ len := by
    simp [List.length_take]
  have : i - ((d.drop offset).take len).length <
      len - ((d.drop offset).take len).length := by omega
  rw [if_pos this]

/-- C10 witness: a concrete over-long read is zero-filled. -/
theorem c10_witness :
    ((get_bytes 1 5 ⟨[1, 2, 3], 0⟩).1).length = 5 ∧
    ((get_bytes 1 5 ⟨[1, 2, 3], 0⟩).1)[3]? = some 0 :=
  ⟨(c10_get_bytes_length_and_zero_fill 1 5 [1, 2, 3] 0).1,
   (c10_get_bytes_length_and_zero_fill 1 5 [1, 2, 3] 0).2 3 (by decide)
     (by decide)⟩

/-- C8 as stated is false: with only 2 bytes past offset 1, the spec's
`readRange` demands `TruncatedReadError`, while the source's `get_bytes`
returns a zero-padded buffer. -/
theorem c8_counterexample :
    readRange_specModel 1 5 [1, 2, 3] = .error .truncatedRead ∧
    (get_bytes 1 5 ⟨[1, 2, 3], 0⟩).1 = [2, 3, 0, 0, 0] := by
  constructor <;> rfl

/-- C8 amended: `get_bytes` seeks to `offset` and returns exactly `length`
bytes — the bytes found there when the stream suffices, and otherwise the
available bytes zero-padded to the requested length; it never fails. -/
theorem c8_amended_get_bytes_zero_pads (offset len : Nat) (d : List Nat)
    (p : Nat) :
    ((get_bytes offset len ⟨d, p⟩).1).length = len ∧
    (offset + len ≤ d.length →
      (get_bytes offset len ⟨d, p⟩).1 = (d.drop offset).take len) ∧
    (d.length < offset + len →
      (get_bytes offset len ⟨d, p⟩).1 =
        (d.drop offset).take len ++
          List.replicate (len - (d.length - offset)) 0) := by
  refine ⟨readinto_fst_length len (seek offset ⟨d, p⟩), ?_, ?_⟩
  · intro h
    exact readinto_full len (seek offset ⟨d, p⟩) h
  · intro h
    show (readinto len (seek offset ⟨d, p⟩)).1 = _
    simp only [readinto, seek]
    have : ((d.drop offset).take len).length = d.length - offset := by
      simp [List.length_take, List.length_drop]
      omega
    rw [this]

/-- C8 amended witness: one in-bounds read and one zero-padded read. -/
theorem c8_amended_witness :
    (get_bytes 0 2 ⟨[7, 8, 9], 0⟩).1 = [7, 8] ∧
    (get_bytes 2 3 ⟨[7, 8, 9], 0⟩).1 = [9, 0, 0] :=
  ⟨((c8_amended_get_bytes_zero_pads 0 2 [7, 8, 9] 0).2.1 (by decide)).trans
     (by decide),
   ((c8_amended_get_bytes_zero_pads 2 3 [7, 8, 9] 0).2.2 (by decide)).trans
     (by decide)⟩

/-- C2 as stated is false: a 2-byte stream converted with `byteCount = 4`
yields the zero-padded value 1541, not an error, and parsing an archive
that declares 2 entries with no entry bytes returns a manifest of two
zero-filled entries. -/
theorem c2_counterexample :
    convert_bytes 4 "int" ⟨[5, 6], 0⟩ =
      .ok (.int 1541, ⟨[5, 6], 2⟩) ∧
    create_manifest truncArchive =
      .ok ⟨2, [⟨0, 0, 0, 0, []⟩, ⟨0, 0, 0, 0, []⟩]⟩ := by
  constructor <;> rfl

/-- C2 amended: when fewer than `byteCount` bytes remain, `convert_bytes`
zero-fills the missing bytes and returns a value; no truncation error
exists, so over-declared archives parse to padded manifests. -/
theorem c2_amended_convert_bytes_never_truncation_fails (n : Nat)
    (s : ByteStream) :
    convert_bytes n "int" s =
      .ok (.int (fromBytesLE ((readinto n s).1)), (readinto n s).2) ∧
    ((readinto n s).1).length = n :=
  ⟨convert_bytes_int_eq n s, readinto_fst_length n s⟩

/-- C1: with enough archive bytes and a fully working destination,
extracting an entry succeeds and writes exactly the `length`-byte slice at
`file_offset`. -/
theorem c1_extract_round_trip (entry : ManifestEntry) (out d : List Nat)
    (p : Nat) (behavior : List Nat → WriteBehavior)
    (hsize : entry.file_offset + entry.length ≤ d.length)
    (hok : behavior (os_path_join out entry.file_name) = .ok) :
    extract_manifest_entry entry out ⟨d, p⟩ behavior =
      .ok (⟨os_path_join out entry.file_name,
            some ((d.drop entry.file_offset).take entry.length), false⟩,
           (get_bytes entry.file_offset entry.length ⟨d, p⟩).2) := by
  have hfull := readinto_full entry.length (seek entry.file_offset ⟨d, p⟩)
    (by simpa [seek] using hsize)
  simp only [extract_manifest_entry, hok]
  simpa [seek, get_bytes] using congrArg some hfull

/-- C1 witness: the first scenario entry round-trips the first five archive
bytes. -/
theorem c1_witness :
    extract_manifest_entry ⟨5, 5, 0, 5, nameATxt⟩ outRoot ⟨testArchive, 0⟩
        (fun _ => .ok) =
      .ok (⟨os_path_join outRoot nameATxt,
            some ((testArchive.drop 0).take 5), false⟩,
           (get_bytes 0 5 ⟨testArchive, 0⟩).2) :=
  c1_extract_round_trip ⟨5, 5, 0, 5, nameATxt⟩ outRoot testArchive 0
    (fun _ => .ok) (by decide) (by decide)

/-- C3 as stated is false: the traversal name `../evil` is not rejected — a
file is written — and its destination escapes the output root. -/
theorem c3_counterexample :
    extract_manifest_entry ⟨3, 3, 0, 7, nameDotDotEvil⟩ outRoot
        ⟨testArchive, 0⟩ (fun _ => .ok) =
      .ok (⟨os_path_join outRoot nameDotDotEvil,
            some ((testArchive.drop 0).take 3), false⟩, ⟨testArchive, 3⟩) ∧
    liesUnder outRoot (os_path_join outRoot nameDotDotEvil) = false := by
  constructor
  · rfl
  · decide

/-- C3 amended: no guard exists — every entry, empty or traversal names
included, is directed at the plain join of the output root and the name,
written there whenever the destination works, and such a destination can
escape the root. -/
theorem c3_amended_no_guard (entry : ManifestEntry) (out d : List Nat)
    (p : Nat) (behavior : List Nat → WriteBehavior) :
    (∀ w s2, extract_manifest_entry entry out ⟨d, p⟩ behavior = .ok (w, s2) →
      w.file_path = os_path_join out entry.file_name) ∧
    (behavior (os_path_join out entry.file_name) = .ok →
      extract_manifest_entry entry out ⟨d, p⟩ behavior =
        .ok (⟨os_path_join out entry.file_name,
              some (get_bytes entry.file_offset entry.length ⟨d, p⟩).1,
              false⟩,
             (get_bytes entry.file_offset entry.length ⟨d, p⟩).2)) ∧
    ∃ root nm, liesUnder root (os_path_join root nm) = false := by
  refine ⟨?_, ?_, ⟨outRoot, nameDotDotEvil, by decide⟩⟩
  · intro w s2 h
    rw [extract_manifest_entry] at h
    split at h
    · exact absurd h (by simp)
    · exact absurd h (by simp)
    · simp only [Except.ok.injEq, Prod.mk.injEq] at h
      rw [← h.1]
    · simp only [Except.ok.injEq, Prod.mk.injEq] at h
      rw [← h.1]
  · intro h
    simp [extract_manifest_entry, h]

/-- C3 amended witness: the traversal entry is written, to the unguarded
join. -/
theorem c3_amended_witness :
    extract_manifest_entry ⟨3, 3, 5, 7, nameDotDotEvil⟩ outRoot
        ⟨testArchive, 0⟩ (fun _ => .ok) =
      .ok (⟨os_path_join outRoot nameDotDotEvil,
            some (get_bytes 5 3 ⟨testArchive, 0⟩).1, false⟩,
           (get_bytes 5 3 ⟨testArchive, 0⟩).2) :=
  (c3_amended_no_guard ⟨3, 3, 5, 7, nameDotDotEvil⟩ outRoot testArchive 0
      (fun _ => .ok)).2.1 (by decide)

/-- Extraction of one entry ignores the incoming cursor: the stream is
re-seeked to the entry's own offset. -/
theorem extract_entry_pos_irrelevant (e : ManifestEntry) (out d : List Nat)
    (p : Nat) (f : List Nat → WriteBehavior) :
    extract_manifest_entry e out ⟨d, p⟩ f =
      extract_manifest_entry e out ⟨d, 0⟩ f := rfl

/-- A caught-case extraction succeeds, with the entry's own outcome and a
stream holding the same data. -/
theorem extract_entry_caught (e : ManifestEntry) (out d : List Nat) (p : Nat)
    (f : List Nat → WriteBehavior)
    (h : f (os_path_join out e.file_name) = .ok ∨
         f (os_path_join out e.file_name) = .ioError) :
    extract_manifest_entry e out ⟨d, p⟩ f =
      .ok (entryOutcomeCaught e out d f,
           ⟨d, e.file_offset +
                ((d.drop e.file_offset).take e.length).length⟩) := by
  rcases h with h | h <;>
    simp [extract_manifest_entry, entryOutcomeCaught, h, get_bytes, readinto,
      seek]

/-- When no entry's destination raises an uncaught exception, the loop
covers every entry, each with its own caught-case outcome. -/
theorem extractLoop_caught (es : List ManifestEntry) (out d : List Nat)
    (p : Nat) (f : List Nat → WriteBehavior)
    (h : ∀ e ∈ es, f (os_path_join out e.file_name) = .ok ∨
         f (os_path_join out e.file_name) = .ioError) :
    extractLoop es out ⟨d, p⟩ f =
      (es.map (fun e => entryOutcomeCaught e out d f), none) := by
  induction es generalizing p with
  | nil => rfl
  | cons e rest ih =>
    rw [extractLoop, extract_entry_caught e out d p f (h e (by simp))]
    dsimp only
    rw [ih _ (fun e2 he2 => h e2 (by simp [he2]))]
    rfl

/-- C4 as stated is false: an `os.makedirs` failure (an "invalid path"
write failure) on the first scenario entry propagates uncaught and aborts
the batch — no entry is extracted — even though the second entry's own
extraction would have succeeded. -/
theorem c4_counterexample :
    extract_manifest_files testManifest outRoot testArchive
        makedirsFailFirst = ([], some PyError.makedirsOSError) ∧
    extract_manifest_entry ⟨3, 3, 5, 9, nameDirBTxt⟩ outRoot
        ⟨testArchive, 0⟩ makedirsFailFirst =
      .ok (⟨os_path_join outRoot nameDirBTxt, some [65, 82, 32], false⟩,
           ⟨testArchive, 8⟩) := by
  constructor
  · rfl
  · rfl

/-- C4 amended: only the `IOError` raised by `open`/`write` inside the
`try` block is caught and logged for that entry alone, letting the batch
cover every entry; an `OSError` from `os.makedirs` or a `ValueError` from
`open` propagates uncaught and aborts the batch, so no later entry is
processed. -/
theorem c4_only_open_write_ioerror_isolated (m : Manifest) (out d : List Nat)
    (behavior : List Nat → WriteBehavior) :
    ((∀ e ∈ m.manifest_entries,
        behavior (os_path_join out e.file_name) = .ok ∨
        behavior (os_path_join out e.file_name) = .ioError) →
      extract_manifest_files m out d behavior =
        (m.manifest_entries.map
          (fun e => entryOutcomeCaught e out d behavior), none)) ∧
    (∀ e s, behavior (os_path_join out e.file_name) = .ioError →
      extract_manifest_entry e out s behavior =
        .ok (⟨os_path_join out e.file_name, none, true⟩,
             (get_bytes e.file_offset e.length s).2)) ∧
    (∀ e rest s err, extract_manifest_entry e out s behavior = .error err →
      extractLoop (e :: rest) out s behavior = ([], some err)) ∧
    (∀ e s, behavior (os_path_join out e.file_name) = .makedirsOSError →
      extract_manifest_entry e out s behavior =
        .error .makedirsOSError) := by
  refine ⟨?_, ?_, ?_, ?_⟩
  · intro h
    exact extractLoop_caught m.manifest_entries out d 0 behavior h
  · intro e s h
    simp [extract_manifest_entry, h, get_bytes]
  · intro e rest s err h
    rw [extractLoop, h]
  · intro e s h
    simp [extract_manifest_entry, h]

/-- C4 amended witness: an `IOError` on the first scenario entry is logged
for it alone and the second entry is still extracted, while a `makedirs`
failure on the first entry aborts the loop before the second. -/
theorem c4_amended_witness :
    extract_manifest_files testManifest outRoot testArchive ioErrorFailFirst =
      ([⟨os_path_join outRoot nameATxt, none, true⟩,
        ⟨os_path_join outRoot nameDirBTxt,
         some (get_bytes 5 3 ⟨testArchive, 0⟩).1, false⟩], none) ∧
    extract_manifest_entry ⟨5, 5, 0, 5, nameATxt⟩ outRoot ⟨testArchive, 0⟩
        ioErrorFailFirst =
      .ok (⟨os_path_join outRoot nameATxt, none, true⟩,
           (get_bytes 0 5 ⟨testArchive, 0⟩).2) ∧
    extractLoop [⟨5, 5, 0, 5, nameATxt⟩] outRoot ⟨testArchive, 0⟩
        makedirsFailFirst = ([], some PyError.makedirsOSError) := by
  refine ⟨?_, ?_, ?_⟩
  · rw [(c4_only_open_write_ioerror_isolated testManifest outRoot testArchive
      ioErrorFailFirst).1 (by decide)]
    rfl
  · exact (c4_only_open_write_ioerror_isolated testManifest outRoot
      testArchive ioErrorFailFirst).2.1 ⟨5, 5, 0, 5, nameATxt⟩
      ⟨testArchive, 0⟩ (by decide)
  · exact (c4_only_open_write_ioerror_isolated testManifest outRoot
      testArchive makedirsFailFirst).2.2.1 ⟨5, 5, 0, 5, nameATxt⟩ []
      ⟨testArchive, 0⟩ PyError.makedirsOSError (by rfl)

/-- `do`-reduction for `Except`: binding a success applies the
continuation. -/
theorem exceptBind_ok {α β ε : Type} (a : α) (f : α → Except ε β) :
    (Except.ok a >>= f) = f a := rfl

/-- `do`-reduction for `Except`: binding a failure short-circuits. -/
theorem exceptBind_error {α β ε : Type} (e : ε) (f : α → Except ε β) :
    (Except.error e >>= f) = (Except.error e : Except ε β) := rfl

/-- The entry loop returns exactly as many entries as it was asked for. -/
theorem parseEntriesLoop_length :
    ∀ (n : Nat) (s : ByteStream) (es : List ManifestEntry) (s2 : ByteStream),
      parseEntriesLoop n s = .ok (es, s2) → es.length = n := by
  intro n
  induction n with
  | zero =>
    intro s es s2 h
    simp [parseEntriesLoop] at h
    simp [h.1]
  | succ k ih =>
    intro s es s2 h
    simp only [parseEntriesLoop] at h
    cases hp : parse_manifest_entry s with
    | error e => rw [hp, exceptBind_error] at h; exact absurd h (by simp)
    | ok v =>
      obtain ⟨e, s1⟩ := v
      rw [hp, exceptBind_ok] at h
      cases hl : parseEntriesLoop k s1 with
      | error e2 => rw [hl, exceptBind_error] at h; exact absurd h (by simp)
      | ok w =>
        obtain ⟨rest, send⟩ := w
        rw [hl, exceptBind_ok] at h
        simp only [Except.ok.injEq, Prod.mk.injEq] at h
        have := ih s1 rest send hl
        simp [← h.1, this]

/-- C5: a successfully parsed manifest came from reading the header, seeking
to the manifest offset, reading the 4-byte count, and parsing exactly that
many entries in order; its entry list has length `number_of_files`. -/
theorem c5_create_manifest_structure (d : List Nat) (m : Manifest)
    (h : create_manifest d = .ok m) :
    m.manifest_entries.length = m.number_of_files ∧
    ∃ mo s3 s5 send,
      parseHeaderState d = .ok (mo, s3) ∧
      convert_bytes 4 "int" (seek mo s3) =
        .ok (.int m.number_of_files, s5) ∧
      parseEntriesLoop m.number_of_files s5 =
        .ok (m.manifest_entries, send) := by
  rw [create_manifest] at h
  cases hh : parseHeaderState d with
  | error e => rw [hh, exceptBind_error] at h; exact absurd h (by simp)
  | ok v =>
    obtain ⟨mo, s3⟩ := v
    rw [hh, exceptBind_ok] at h
    rw [convert_bytes_int_eq, exceptBind_ok] at h
    cases hl : parseEntriesLoop
        (pyInt (.int (fromBytesLE ((readinto 4 (seek mo s3)).1))))
        ((readinto 4 (seek mo s3)).2) with
    | error e2 => rw [hl, exceptBind_error] at h; exact absurd h (by simp)
    | ok w =>
      obtain ⟨es, send⟩ := w
      rw [hl, exceptBind_ok] at h
      simp only [Except.ok.injEq] at h
      subst h
      refine ⟨?_, mo, s3, (readinto 4 (seek mo s3)).2, send, rfl, ?_, ?_⟩
      · exact parseEntriesLoop_length _ _ _ _ (by simpa [pyInt] using hl)
      · rw [convert_bytes_int_eq]
        rfl
      · simpa [pyInt] using hl

set_option maxHeartbeats 4000000 in
/-- C5 witness: the scenario archive parses to the expected two-entry
manifest via exactly this pipeline. -/
theorem c5_witness :
    testManifest.manifest_entries.length = testManifest.number_of_files ∧
    ∃ mo s3 s5 send,
      parseHeaderState testArchive = .ok (mo, s3) ∧
      convert_bytes 4 "int" (seek mo s3) =
        .ok (.int testManifest.number_of_files, s5) ∧
      parseEntriesLoop testManifest.number_of_files s5 =
        .ok (testManifest.manifest_entries, send) :=
  c5_create_manifest_structure testArchive testManifest (by rfl)

/-- A successful lookup returns a matching entry at some index before which
no entry matches. -/
theorem findEntry_ok_first :
    ∀ (es : List ManifestEntry) (nm : List Nat) (e : ManifestEntry),
      findEntry es nm = .ok e →
      e.file_name = nm ∧
      ∃ i, ∃ hi : i < es.length, e = es.get ⟨i, hi⟩ ∧
        ∀ j, ∀ hj : j < es.length, j < i →
          (es.get ⟨j, hj⟩).file_name ≠ nm := by
  intro es
  induction es with
  | nil => intro nm e h; simp [findEntry] at h
  | cons a rest ih =>
    intro nm e h
    by_cases ha : a.file_name = nm
    · rw [findEntry, if_pos ha] at h
      obtain rfl : a = e := by simpa using h
      exact ⟨ha, 0, by simp, rfl, fun j hj hji => absurd hji (by omega)⟩
    · rw [findEntry, if_neg ha] at h
      obtain ⟨he, i, hi, hei, hfirst⟩ := ih nm e h
      refine ⟨he, i + 1, by simpa using hi, hei, ?_⟩
      intro j hj hji
      match j, hj with
      | 0, hj => exact ha
      | j' + 1, hj => exact hfirst j' (by simpa using hj) (by omega)

/-- When no entry matches, the lookup loop raises the not-found error. -/
theorem findEntry_not_found :
    ∀ (es : List ManifestEntry) (nm : List Nat),
      (∀ e ∈ es, e.file_name ≠ nm) →
      findEntry es nm = .error .fileNameNotFound := by
  intro es
  induction es with
  | nil => intro nm _; rfl
  | cons a rest ih =>
    intro nm hall
    rw [findEntry, if_neg (hall a (by simp))]
    exact ih nm (fun e he => hall e (by simp [he]))

/-- When some entry matches, the lookup loop succeeds. -/
theorem findEntry_exists :
    ∀ (es : List ManifestEntry) (nm : List Nat),
      (∃ e ∈ es, e.file_name = nm) →
      ∃ e, findEntry es nm = .ok e := by
  intro es
  induction es with
  | nil => intro nm h; simp at h
  | cons a rest ih =>
    intro nm h
    by_cases ha : a.file_name = nm
    · exact ⟨a, by rw [findEntry, if_pos ha]⟩
    · obtain ⟨e, he, hname⟩ := h
      rcases List.mem_cons.mp he with rfl | hrest
      · exact absurd hname ha
      · obtain ⟨e2, he2⟩ := ih nm ⟨e, hrest, hname⟩
        exact ⟨e2, by rw [findEntry, if_neg ha]; exact he2⟩

/-- C6: the by-name lookup returns the first entry in archive order whose
normalized name matches exactly, also among duplicates, and raises the
not-found error exactly when no entry matches. -/
theorem c6_lookup_first_match (m : Manifest) (nm : List Nat) :
    (∀ e, get_manifest_entry_by_name m nm = .ok e →
      e.file_name = nm ∧
      ∃ i, ∃ hi : i < m.manifest_entries.length,
        e = m.manifest_entries.get ⟨i, hi⟩ ∧
        ∀ j, ∀ hj : j < m.manifest_entries.length, j < i →
          (m.manifest_entries.get ⟨j, hj⟩).file_name ≠ nm) ∧
    ((∃ e ∈ m.manifest_entries, e.file_name = nm) →
      ∃ e, get_manifest_entry_by_name m nm = .ok e) ∧
    ((∀ e ∈ m.manifest_entries, e.file_name ≠ nm) →
      get_manifest_entry_by_name m nm = .error .fileNameNotFound) :=
  ⟨fun e h => findEntry_ok_first m.manifest_entries nm e h,
   fun h => findEntry_exists m.manifest_entries nm h,
   fun h => findEntry_not_found m.manifest_entries nm h⟩

/-- C6 witness: among duplicates the first entry wins, and an absent name
raises the not-found error. -/
theorem c6_witness :
    ((⟨1, 1, 0, 5, nameATxt⟩ : ManifestEntry).file_name = nameATxt ∧
      ∃ i, ∃ hi : i < dupManifest.manifest_entries.length,
        (⟨1, 1, 0, 5, nameATxt⟩ : ManifestEntry) =
          dupManifest.manifest_entries.get ⟨i, hi⟩ ∧
        ∀ j, ∀ hj : j < dupManifest.manifest_entries.length, j < i →
          (dupManifest.manifest_entries.get ⟨j, hj⟩).file_name ≠ nameATxt) ∧
    get_manifest_entry_by_name dupManifest [120] =
      .error .fileNameNotFound :=
  ⟨(c6_lookup_first_match dupManifest nameATxt).1 ⟨1, 1, 0, 5, nameATxt⟩
     (by rfl),
   (c6_lookup_first_match dupManifest [120]).2.2 (by decide)⟩
